import Mathlib

/-!
Verification of the WA-Broadcast-Backend dispatch engine and member routes.

The embedding follows `src/models.py`, `src/schemas.py` and `src/main.py`:
SQLAlchemy tables become Lean structures, the database session becomes an
explicit `DB` record of row lists, and each route / background task becomes a
pure function on `DB`.  Statuses are stored as strings, as in the source
(`Column(String, default=...)` over `str` enums).
-/

namespace WABroadcast

/- `models.MemberStatus` (a `str` enum). -/
namespace MemberStatus

def ACTIVE : String := "active"

def INACTIVE : String := "inactive"

end MemberStatus

/- `models.BroadcastStatus` (a `str` enum). -/
namespace BroadcastStatus

def DRAFT : String := "draft"

def SCHEDULED : String := "scheduled"

def PROCESSING : String := "processing"

def COMPLETED : String := "completed"

def FAILED : String := "failed"

end BroadcastStatus

/-- `models.Organization`: tenant row with nullable channel credentials. -/
structure Organization where
  id : Nat
  name : String
  whatsapp_number : Option String
  whatsapp_business_account_id : Option String
  whatsapp_access_token : Option String
  deriving Repr, DecidableEq

/-- `models.User`: the authenticated principal (fields used by the routes). -/
structure User where
  id : Nat
  email : String
  organization_id : Nat
  deriving Repr, DecidableEq

/-- `models.Member`: a recipient row. `status` defaults to `"active"`;
`created_at` is an abstract timestamp. -/
structure Member where
  id : Nat
  name : String
  phone_number : String
  status : String
  organization_id : Nat
  created_at : Nat
  deriving Repr, DecidableEq

/-- `models.Broadcast`: a dispatch job row. -/
structure Broadcast where
  id : Nat
  content : String
  media_url : Option String
  message_type : String
  template_name : Option String
  status : String
  organization_id : Nat
  deriving Repr, DecidableEq

/-- `models.BroadcastLog`: one per-recipient delivery-ledger row. The
database-assigned surrogate key and `updated_at` are not modelled; a row's
identity in the ledger is its position in the list. -/
structure BroadcastLog where
  broadcast_id : Nat
  member_id : Nat
  status : String
  error_reason : Option String
  message_id : Option String
  deriving Repr, DecidableEq

/-- The SQLAlchemy session / database state: the tables the verified routes
touch. -/
structure DB where
  organizations : List Organization
  members : List Member
  broadcasts : List Broadcast
  broadcast_logs : List BroadcastLog
  deriving Repr, DecidableEq

/-- `db.query(models.Broadcast).filter(models.Broadcast.id == broadcast_id).first()` -/
def getBroadcast (db : DB) (broadcast_id : Nat) : Option Broadcast :=
  db.broadcasts.find? (fun b => b.id == broadcast_id)

/-- The active-member query of `process_broadcast`:
`filter(organization_id == broadcast.organization_id, status == ACTIVE)`. -/
def activeMembers (db : DB) (org_id : Nat) : List Member :=
  db.members.filter
    (fun m => m.organization_id == org_id && m.status == MemberStatus.ACTIVE)

/-- `broadcast.status = st` followed by `db.commit()`: updates the status of the
row with the given id in the broadcasts table. -/
def setBroadcastStatus (db : DB) (broadcast_id : Nat) (st : String) : DB :=
  { db with
      broadcasts :=
        db.broadcasts.map
          (fun b => if b.id == broadcast_id then { b with status := st } else b) }

/-- The log row created in the dispatch loop:
`BroadcastLog(broadcast_id=broadcast.id, member_id=member.id, status="sent")`. -/
def mkSentLog (broadcast_id member_id : Nat) : BroadcastLog :=
  { broadcast_id := broadcast_id
    member_id := member_id
    status := "sent"
    error_reason := none
    message_id := none }

/-- `main.process_broadcast(broadcast_id, db)`: load the broadcast (return
unchanged if absent), query active members, set status `processing` and commit,
add one `"sent"` log per member, set status `completed` and commit. -/
def process_broadcast (broadcast_id : Nat) (db : DB) : DB :=
  match getBroadcast db broadcast_id with
  | none => db
  | some broadcast =>
      let members := activeMembers db broadcast.organization_id
      let db1 := setBroadcastStatus db broadcast_id BroadcastStatus.PROCESSING
      let db2 :=
        { db1 with
            broadcast_logs :=
              db1.broadcast_logs ++
                members.map (fun m => mkSentLog broadcast.id m.id) }
      setBroadcastStatus db2 broadcast_id BroadcastStatus.COMPLETED

/-- Observable events of one `process_broadcast` run: a `commit` makes a
database state durable; a `send` is the per-recipient send attempt (the
`print(f"[{phone}] Sending Message: ...")` placeholder in the source). -/
inductive Event where
  | commit (db : DB)
  | send (member_id : Nat) (phone_number : String) (content : String)
  deriving Repr, DecidableEq

/-- `process_broadcast` instrumented with its event trace: the source commits
once right after setting `processing` (before any send) and once at the end
after setting `completed`; uncommitted `db.add(log)` calls become durable only
at that final commit. -/
def process_broadcast_trace (broadcast_id : Nat) (db : DB) : DB × List Event :=
  match getBroadcast db broadcast_id with
  | none => (db, [])
  | some broadcast =>
      let members := activeMembers db broadcast.organization_id
      let db1 := setBroadcastStatus db broadcast_id BroadcastStatus.PROCESSING
      let db2 :=
        { db1 with
            broadcast_logs :=
              db1.broadcast_logs ++
                members.map (fun m => mkSentLog broadcast.id m.id) }
      let db3 := setBroadcastStatus db2 broadcast_id BroadcastStatus.COMPLETED
      (db3,
        Event.commit db1 ::
          members.map (fun m => Event.send m.id m.phone_number broadcast.content)
            ++ [Event.commit db3])

/-- The ledger rows of one broadcast. -/
def logsFor (db : DB) (broadcast_id : Nat) : List BroadcastLog :=
  db.broadcast_logs.filter (fun l => l.broadcast_id == broadcast_id)

/-- Number of ledger rows for a (broadcast, member) pair. -/
def countLogsFor (db : DB) (broadcast_id member_id : Nat) : Nat :=
  (logsFor db broadcast_id).countP (fun l => l.member_id == member_id)

/-- Status of a broadcast as read from the store. -/
def broadcastStatusIn (db : DB) (broadcast_id : Nat) : Option String :=
  (getBroadcast db broadcast_id).map (fun b => b.status)

/-- Primary-key well-formedness of the members table: ids are unique. -/
def membersNodup (db : DB) : Prop :=
  (db.members.map (fun m => m.id)).Nodup

instance (db : DB) : Decidable (membersNodup db) := by
  unfold membersNodup; infer_instance

/-- `schemas.MemberUpdate`: all three fields optional. -/
structure MemberUpdate where
  name : Option String
  phone_number : Option String
  status : Option String
  deriving Repr, DecidableEq

/-- The member query shared by `update_member` and `delete_member`:
`filter(Member.id == member_id, Member.organization_id == current_user.organization_id).first()`. -/
def findOwnMember (db : DB) (member_id : Nat) (current_user : User) : Option Member :=
  db.members.find?
    (fun m => m.id == member_id && m.organization_id == current_user.organization_id)

/-- The field assignments of `update_member` applied to the found row:
`if member_update.name: db_member.name = ...` and likewise for
`phone_number`; no other field is written. -/
def applyMemberUpdate (mu : MemberUpdate) (m : Member) : Member :=
  let m1 :=
    match mu.name with
    | some n => if !n.isEmpty then { m with name := n } else m
    | none => m
  match mu.phone_number with
  | some p => if !p.isEmpty then { m1 with phone_number := p } else m1
  | none => m1

/-- Replace the first list element satisfying `p` by its image under `f`
(mutation of the single ORM row returned by `.first()`). -/
def updateFirst (p : Member → Bool) (f : Member → Member) : List Member → List Member
  | [] => []
  | m :: ms => if p m then f m :: ms else m :: updateFirst p f ms

/-- Remove the first list element satisfying `p` (`db.delete(db_member)` on the
row returned by `.first()`). -/
def removeFirst (p : Member → Bool) : List Member → List Member
  | [] => []
  | m :: ms => if p m then ms else m :: removeFirst p ms

/-- `GET /members` (`read_members`): rows of the caller's organization, with
`offset(skip).limit(limit)`. -/
def read_members (skip limit : Nat) (current_user : User) (db : DB) : List Member :=
  (((db.members.filter
        (fun m => m.organization_id == current_user.organization_id)).drop skip).take
    limit)

/-- `PUT /members/{member_id}` (`update_member`): 404 if no row of the caller's
organization has the id; otherwise apply the truthy `name` / `phone_number`
fields and commit. -/
def update_member (member_id : Nat) (mu : MemberUpdate) (current_user : User)
    (db : DB) : Except String DB :=
  match findOwnMember db member_id current_user with
  | none => Except.error "Member not found"
  | some _ =>
      Except.ok
        { db with
            members :=
              updateFirst
                (fun m =>
                  m.id == member_id &&
                    m.organization_id == current_user.organization_id)
                (applyMemberUpdate mu) db.members }

/-- `DELETE /members/{member_id}` (`delete_member`): 404 if no row of the
caller's organization has the id; otherwise delete all broadcast logs with this
`member_id`, then the member row. -/
def delete_member (member_id : Nat) (current_user : User) (db : DB) :
    Except String DB :=
  match findOwnMember db member_id current_user with
  | none => Except.error "Member not found"
  | some _ =>
      Except.ok
        { db with
            broadcast_logs :=
              db.broadcast_logs.filter (fun l => !(l.member_id == member_id))
            members :=
              removeFirst
                (fun m =>
                  m.id == member_id &&
                    m.organization_id == current_user.organization_id)
                db.members }

/-- `GET /broadcasts` (`read_broadcasts`): rows of the caller's organization. -/
def read_broadcasts (current_user : User) (db : DB) : List Broadcast :=
  db.broadcasts.filter
    (fun b => b.organization_id == current_user.organization_id)

/-- Outcome of one Channel Sender call (`send(recipientAddress, content)` of
spec §6): success, or an error carrying a reason. -/
def ChannelSender : Type := String → String → Except String Unit

/-- Modelled from the spec: the live dispatch loop never invokes a Channel
Sender and unconditionally records `status="sent"` (the `"Optimistic for MVP"`
comment); the real call and its failure branch exist only as the commented-out
sketch at `src/main.py` lines 229-235 (`log.status = "delivered"` on success,
`log.status = "failed"` with `log.error_reason = str(e)` on failure).  This is
the dispatch loop with that sketch enabled, per spec §4.3 step 4: one ledger
entry per recipient, outcome recorded from the sender, a failure scoped to its
own entry. -/
def sendLogFor (sender : ChannelSender) (broadcast : Broadcast) (m : Member) :
    BroadcastLog :=
  match sender m.phone_number broadcast.content with
  | Except.ok _ =>
      { broadcast_id := broadcast.id
        member_id := m.id
        status := "delivered"
        error_reason := none
        message_id := none }
  | Except.error e =>
      { broadcast_id := broadcast.id
        member_id := m.id
        status := "failed"
        error_reason := some e
        message_id := none }

/-- Modelled from the spec: `process_broadcast` with the commented-out Channel
Sender call enabled (see `sendLogFor`); identical to the live function except
that each log row's outcome comes from the sender. -/
def process_broadcast_send (sender : ChannelSender) (broadcast_id : Nat)
    (db : DB) : DB :=
  match getBroadcast db broadcast_id with
  | none => db
  | some broadcast =>
      let members := activeMembers db broadcast.organization_id
      let db1 := setBroadcastStatus db broadcast_id BroadcastStatus.PROCESSING
      let db2 :=
        { db1 with
            broadcast_logs :=
              db1.broadcast_logs ++ members.map (sendLogFor sender broadcast) }
      setBroadcastStatus db2 broadcast_id BroadcastStatus.COMPLETED

/-- `filter(Organization.id == org_id).first()`. -/
def getOrganization (db : DB) (org_id : Nat) : Option Organization :=
  db.organizations.find? (fun o => o.id == org_id)

/-- Modelled from the spec: the live code performs no credential lookup at all
(the `Organization.whatsapp_*` columns of `src/models.py` are never read by
`process_broadcast`).  Spec §6 requires dispatch to look up the organization's
channel credentials before any send and treat their absence as a dispatch-level
failure (broadcast → `failed`, no recipient attempted); the lookup fails when
the organization row is missing or its `whatsapp_access_token` is `NULL`. -/
def dispatch_with_credentials (broadcast_id : Nat) (db : DB) : DB :=
  match getBroadcast db broadcast_id with
  | none => db
  | some broadcast =>
      match (getOrganization db broadcast.organization_id).bind
          (fun o => o.whatsapp_access_token) with
      | none => setBroadcastStatus db broadcast_id BroadcastStatus.FAILED
      | some _ => process_broadcast broadcast_id db

/-- The statuses of one broadcast made durable by the commits of a trace. -/
def commitStatuses (broadcast_id : Nat) (tr : List Event) : List String :=
  tr.filterMap
    (fun e =>
      match e with
      | Event.commit d => broadcastStatusIn d broadcast_id
      | Event.send _ _ _ => none)

/-- The externally observable status sequence of a broadcast across one
dispatch run: its stored status before the run, then the status at each
commit. -/
def statusSeq (broadcast_id : Nat) (db : DB) : List String :=
  (broadcastStatusIn db broadcast_id).toList ++
    commitStatuses broadcast_id (process_broadcast_trace broadcast_id db).2

/-- The canonical lifecycle chain of spec §4.1 (with the `completed` branch). -/
def lifecycleChain : List String :=
  [BroadcastStatus.DRAFT, BroadcastStatus.SCHEDULED, BroadcastStatus.PROCESSING,
    BroadcastStatus.COMPLETED]

/-! ### Concrete rows used to exercise the definitions -/

/-- An organization with channel credentials configured. -/
def exOrg : Organization :=
  { id := 1
    name := "Acme"
    whatsapp_number := some "628000000001"
    whatsapp_business_account_id := some "wba-1"
    whatsapp_access_token := some "token-1" }

/-- An organization whose `whatsapp_access_token` is NULL. -/
def exOrgNoCred : Organization :=
  { id := 2
    name := "NoCred Inc"
    whatsapp_number := none
    whatsapp_business_account_id := none
    whatsapp_access_token := none }

def exUser : User := { id := 1, email := "admin@acme.test", organization_id := 1 }

def exAlice : Member :=
  { id := 1, name := "Alice", phone_number := "62811111", status := "active"
    organization_id := 1, created_at := 10 }

def exBob : Member :=
  { id := 2, name := "Bob", phone_number := "62822222", status := "active"
    organization_id := 1, created_at := 11 }

def exCarol : Member :=
  { id := 3, name := "Carol", phone_number := "62833333", status := "inactive"
    organization_id := 1, created_at := 12 }

def exDave : Member :=
  { id := 4, name := "Dave", phone_number := "62844444", status := "active"
    organization_id := 2, created_at := 13 }

def exBroadcast : Broadcast :=
  { id := 1, content := "Hello", media_url := none, message_type := "text"
    template_name := none, status := "scheduled", organization_id := 1 }

/-- A broadcast of the credential-less organization. -/
def exBroadcastNoCred : Broadcast :=
  { id := 2, content := "Promo", media_url := none, message_type := "text"
    template_name := none, status := "scheduled", organization_id := 2 }

/-- The store: two organizations, four members (two active in org 1, one
inactive in org 1, one active in org 2), two scheduled broadcasts, no logs. -/
def exDB : DB :=
  { organizations := [exOrg, exOrgNoCred]
    members := [exAlice, exBob, exCarol, exDave]
    broadcasts := [exBroadcast, exBroadcastNoCred]
    broadcast_logs := [] }

/-- A store whose only broadcast targets an organization with no active
members (org 1 has only the inactive Carol here). -/
def exDBEmptyAudience : DB :=
  { organizations := [exOrg]
    members := [exCarol]
    broadcasts := [exBroadcast]
    broadcast_logs := [] }

/-- A Channel Sender that fails exactly on Bob's phone number. -/
def exSender : ChannelSender :=
  fun phone _content =>
    if phone = "62822222" then Except.error "invalid number" else Except.ok ()

/-- A member-update request renaming the member and carrying a `status` value
that `update_member` must ignore. -/
def exUpdate : MemberUpdate :=
  { name := some "Alice Prime", phone_number := none, status := some "inactive" }

/-- `exDB` after `update_member 1 exUpdate exUser`: only Alice's name changed. -/
def exDBUpdated : DB :=
  { exDB with
      members := [{ exAlice with name := "Alice Prime" }, exBob, exCarol, exDave] }

/-- `exDB` after `delete_member 1 exUser`: Alice's row removed. -/
def exDBDeleted : DB :=
  { exDB with members := [exBob, exCarol, exDave] }

/-! ### Shared lemmas about the dispatch engine -/

lemma getBroadcast_id {db : DB} {bid : Nat} {b : Broadcast}
    (h : getBroadcast db bid = some b) : b.id = bid := by
  have := List.find?_some h
  simpa using this

lemma process_broadcast_members (bid : Nat) (db : DB) :
    (process_broadcast bid db).members = db.members := by
  unfold process_broadcast
  cases h : getBroadcast db bid <;> rfl

lemma process_broadcast_organizations (bid : Nat) (db : DB) :
    (process_broadcast bid db).organizations = db.organizations := by
  unfold process_broadcast
  cases h : getBroadcast db bid <;> rfl

lemma process_broadcast_logs {db : DB} {bid : Nat} {b : Broadcast}
    (h : getBroadcast db bid = some b) :
    (process_broadcast bid db).broadcast_logs =
      db.broadcast_logs ++
        (activeMembers db b.organization_id).map (fun m => mkSentLog b.id m.id) := by
  simp only [process_broadcast, h]
  rfl

lemma process_broadcast_none {db : DB} {bid : Nat}
    (h : getBroadcast db bid = none) : process_broadcast bid db = db := by
  simp only [process_broadcast, h]

lemma getBroadcast_setStatus (db : DB) (bid : Nat) (st : String) :
    getBroadcast (setBroadcastStatus db bid st) bid =
      (getBroadcast db bid).map (fun b => { b with status := st }) := by
  unfold getBroadcast setBroadcastStatus
  induction db.broadcasts with
  | nil => rfl
  | cons hd tl ih =>
      by_cases hh : hd.id = bid
      · simp [List.find?_cons, hh]
      · simpa [List.find?_cons, hh] using ih

lemma getBroadcast_process {db : DB} {bid : Nat} {b : Broadcast}
    (h : getBroadcast db bid = some b) :
    getBroadcast (process_broadcast bid db) bid =
      some { b with status := BroadcastStatus.COMPLETED } := by
  simp only [process_broadcast, h]
  have h2 : getBroadcast
      { setBroadcastStatus db bid BroadcastStatus.PROCESSING with
          broadcast_logs :=
            (setBroadcastStatus db bid BroadcastStatus.PROCESSING).broadcast_logs ++
              (activeMembers db b.organization_id).map
                (fun m => mkSentLog b.id m.id) } bid =
      getBroadcast (setBroadcastStatus db bid BroadcastStatus.PROCESSING) bid := rfl
  rw [getBroadcast_setStatus, h2, getBroadcast_setStatus, h]
  rfl

lemma broadcastStatusIn_process {db : DB} {bid : Nat} {b : Broadcast}
    (h : getBroadcast db bid = some b) :
    broadcastStatusIn (process_broadcast bid db) bid =
      some BroadcastStatus.COMPLETED := by
  unfold broadcastStatusIn
  rw [getBroadcast_process h]
  rfl

lemma logsFor_process {db : DB} {bid : Nat} {b : Broadcast}
    (h : getBroadcast db bid = some b) :
    logsFor (process_broadcast bid db) bid =
      logsFor db bid ++
        (activeMembers db b.organization_id).map (fun m => mkSentLog b.id m.id) := by
  have hid := getBroadcast_id h
  unfold logsFor
  rw [process_broadcast_logs h, List.filter_append]
  congr 1
  apply List.filter_eq_self.mpr
  intro l hl
  rcases List.mem_map.mp hl with ⟨m, _, rfl⟩
  simp [mkSentLog, hid]

lemma countLogsFor_process {db : DB} {bid : Nat} {b : Broadcast}
    (h : getBroadcast db bid = some b) (mid : Nat) :
    countLogsFor (process_broadcast bid db) bid mid =
      countLogsFor db bid mid +
        (activeMembers db b.organization_id).countP (fun m => m.id == mid) := by
  unfold countLogsFor
  rw [logsFor_process h, List.countP_append, List.countP_map]
  rfl

lemma countP_id_of_nodup {l : List Member} {m : Member}
    (hnd : (l.map (fun x => x.id)).Nodup) (hm : m ∈ l) :
    l.countP (fun x => x.id == m.id) = 1 := by
  have : l.countP (fun x => x.id == m.id) =
      (l.map (fun x => x.id)).count m.id := by
    rw [List.count, List.countP_map]
    rfl
  rw [this]
  exact List.count_eq_one_of_mem hnd (List.mem_map_of_mem _ hm)

lemma activeMembers_countP_id {db : DB} {m : Member} (org : Nat)
    (hnd : membersNodup db) (hm : m ∈ db.members) :
    (activeMembers db org).countP (fun x => x.id == m.id) =
      if m.organization_id = org ∧ m.status = MemberStatus.ACTIVE then 1 else 0 := by
  by_cases hc : m.organization_id = org ∧ m.status = MemberStatus.ACTIVE
  · rw [if_pos hc]
    have hmem : m ∈ activeMembers db org := by
      unfold activeMembers
      refine List.mem_filter.mpr ⟨hm, ?_⟩
      simp [hc.1, hc.2]
    have hsub : List.Sublist (activeMembers db org) db.members :=
      List.filter_sublist db.members
    have hnd2 : ((activeMembers db org).map (fun x => x.id)).Nodup :=
      hnd.sublist (hsub.map _)
    exact countP_id_of_nodup hnd2 hmem
  · rw [if_neg hc]
    apply List.countP_eq_zero.mpr
    intro x hx
    simp only [beq_iff_eq]
    intro hxy
    have hx' := List.mem_filter.mp hx
    have hxm : x = m :=
      List.inj_on_of_nodup_map hnd (hx'.1) hm hxy
    subst hxm
    have := hx'.2
    simp only [Bool.and_eq_true, beq_iff_eq] at this
    exact hc ⟨this.1, this.2⟩

lemma activeMembers_eq_of_members_eq {db db' : DB} (org : Nat)
    (h : db.members = db'.members) :
    activeMembers db org = activeMembers db' org := by
  unfold activeMembers
  rw [h]

lemma countLogsFor_of_logsFor_nil {db : DB} {bid : Nat}
    (h : logsFor db bid = []) (mid : Nat) : countLogsFor db bid mid = 0 := by
  unfold countLogsFor
  rw [h]
  rfl

lemma broadcastStatusIn_setStatus {db : DB} {bid : Nat} {b : Broadcast}
    (st : String) (hb : getBroadcast db bid = some b) :
    broadcastStatusIn (setBroadcastStatus db bid st) bid = some st := by
  unfold broadcastStatusIn
  rw [getBroadcast_setStatus, hb]
  rfl

lemma process_broadcast_trace_eq {db : DB} {bid : Nat} {b : Broadcast}
    (h : getBroadcast db bid = some b) :
    (process_broadcast_trace bid db).2 =
      Event.commit (setBroadcastStatus db bid BroadcastStatus.PROCESSING) ::
        ((activeMembers db b.organization_id).map
            (fun m => Event.send m.id m.phone_number b.content) ++
          [Event.commit (process_broadcast bid db)]) := by
  simp only [process_broadcast_trace, process_broadcast, h]
  rfl

lemma process_broadcast_trace_none {db : DB} {bid : Nat}
    (h : getBroadcast db bid = none) : (process_broadcast_trace bid db).2 = [] := by
  simp only [process_broadcast_trace, h]

/-! ### Shared lemmas about the spec-modelled sender variant -/

lemma sendLogFor_member_id (sender : ChannelSender) (b : Broadcast) (m : Member) :
    (sendLogFor sender b m).member_id = m.id := by
  unfold sendLogFor
  cases sender m.phone_number b.content <;> rfl

lemma sendLogFor_broadcast_id (sender : ChannelSender) (b : Broadcast) (m : Member) :
    (sendLogFor sender b m).broadcast_id = b.id := by
  unfold sendLogFor
  cases sender m.phone_number b.content <;> rfl

lemma process_broadcast_send_logs {sender : ChannelSender} {db : DB} {bid : Nat}
    {b : Broadcast} (h : getBroadcast db bid = some b) :
    (process_broadcast_send sender bid db).broadcast_logs =
      db.broadcast_logs ++
        (activeMembers db b.organization_id).map (sendLogFor sender b) := by
  simp only [process_broadcast_send, h]
  rfl

lemma getBroadcast_process_send {sender : ChannelSender} {db : DB} {bid : Nat}
    {b : Broadcast} (h : getBroadcast db bid = some b) :
    getBroadcast (process_broadcast_send sender bid db) bid =
      some { b with status := BroadcastStatus.COMPLETED } := by
  simp only [process_broadcast_send, h]
  have h2 : getBroadcast
      { setBroadcastStatus db bid BroadcastStatus.PROCESSING with
          broadcast_logs :=
            (setBroadcastStatus db bid BroadcastStatus.PROCESSING).broadcast_logs ++
              (activeMembers db b.organization_id).map (sendLogFor sender b) } bid =
      getBroadcast (setBroadcastStatus db bid BroadcastStatus.PROCESSING) bid := rfl
  rw [getBroadcast_setStatus, h2, getBroadcast_setStatus, h]
  rfl

lemma broadcastStatusIn_process_send {sender : ChannelSender} {db : DB} {bid : Nat}
    {b : Broadcast} (h : getBroadcast db bid = some b) :
    broadcastStatusIn (process_broadcast_send sender bid db) bid =
      some BroadcastStatus.COMPLETED := by
  unfold broadcastStatusIn
  rw [getBroadcast_process_send h]
  rfl

lemma logsFor_process_send {sender : ChannelSender} {db : DB} {bid : Nat}
    {b : Broadcast} (h : getBroadcast db bid = some b) :
    logsFor (process_broadcast_send sender bid db) bid =
      logsFor db bid ++ (activeMembers db b.organization_id).map (sendLogFor sender b) := by
  have hid := getBroadcast_id h
  unfold logsFor
  rw [process_broadcast_send_logs h, List.filter_append]
  congr 1
  apply List.filter_eq_self.mpr
  intro l hl
  rcases List.mem_map.mp hl with ⟨m, _, rfl⟩
  simp [sendLogFor_broadcast_id, hid]

lemma filter_id_eq_singleton {l : List Member} {m : Member}
    (hnd : (l.map (fun x => x.id)).Nodup) (hm : m ∈ l) :
    l.filter (fun x => x.id == m.id) = [m] := by
  induction l with
  | nil => cases hm
  | cons a t ih =>
      rw [List.map_cons, List.nodup_cons] at hnd
      rcases List.mem_cons.mp hm with rfl | hmt
      · rw [List.filter_cons_of_pos (by simp)]
        have ht : t.filter (fun x => x.id == m.id) = [] := by
          apply List.filter_eq_nil_iff.mpr
          intro x hx
          simp only [beq_iff_eq]
          intro he
          exact hnd.1 (he ▸ List.mem_map_of_mem _ hx)
        rw [ht]
      · have hne : a.id ≠ m.id := by
          intro he
          exact hnd.1 (he ▸ List.mem_map_of_mem _ hmt)
        rw [List.filter_cons_of_neg (by simp [hne])]
        exact ih hnd.2 hmt

/-! ### Shared lemmas about the member routes -/

lemma updateFirst_forall2 (p : Member → Bool) (f : Member → Member) (l : List Member) :
    List.Forall₂ (fun old new => new = old ∨ (p old = true ∧ new = f old)) l
      (updateFirst p f l) := by
  induction l with
  | nil => exact List.Forall₂.nil
  | cons a t ih =>
      unfold updateFirst
      by_cases hp : p a
      · rw [if_pos hp]
        exact List.Forall₂.cons (Or.inr ⟨hp, rfl⟩)
          (List.forall₂_same.mpr (fun x _ => Or.inl rfl))
      · rw [if_neg hp]
        exact List.Forall₂.cons (Or.inl rfl) ih

lemma removeFirst_decomp {p : Member → Bool} {l : List Member} {a : Member}
    (h : l.find? p = some a) :
    ∃ l1 l2, l = l1 ++ a :: l2 ∧ removeFirst p l = l1 ++ l2 ∧ p a = true := by
  induction l with
  | nil => cases h
  | cons x t ih =>
      by_cases hp : p x
      · rw [List.find?_cons_of_pos _ hp] at h
        injection h with h
        subst h
        exact ⟨[], t, rfl, by unfold removeFirst; rw [if_pos hp]; rfl, hp⟩
      · rw [List.find?_cons_of_neg _ hp] at h
        rcases ih h with ⟨l1, l2, he, hr, hpa⟩
        refine ⟨x :: l1, l2, by rw [he]; rfl, ?_, hpa⟩
        unfold removeFirst
        rw [if_neg hp, hr]
        rfl

lemma update_member_ok {mid : Nat} {mu : MemberUpdate} {u : User} {db db' : DB}
    (h : update_member mid mu u db = Except.ok db') :
    (∃ m, findOwnMember db mid u = some m) ∧
      db' = { db with
        members :=
          updateFirst
            (fun m => m.id == mid && m.organization_id == u.organization_id)
            (applyMemberUpdate mu) db.members } := by
  unfold update_member at h
  cases hf : findOwnMember db mid u with
  | none => rw [hf] at h; cases h
  | some m =>
      rw [hf] at h
      injection h with h
      exact ⟨⟨m, rfl⟩, h.symm⟩

lemma delete_member_ok {mid : Nat} {u : User} {db db' : DB}
    (h : delete_member mid u db = Except.ok db') :
    (∃ m, findOwnMember db mid u = some m) ∧
      db' = { db with
        broadcast_logs :=
          db.broadcast_logs.filter (fun l => !(l.member_id == mid))
        members :=
          removeFirst
            (fun m => m.id == mid && m.organization_id == u.organization_id)
            db.members } := by
  unfold delete_member at h
  cases hf : findOwnMember db mid u with
  | none => rw [hf] at h; cases h
  | some m =>
      rw [hf] at h
      injection h with h
      exact ⟨⟨m, rfl⟩, h.symm⟩

lemma applyMemberUpdate_frame (mu : MemberUpdate) (m : Member) :
    (applyMemberUpdate mu m).status = m.status ∧
      (applyMemberUpdate mu m).organization_id = m.organization_id ∧
      (applyMemberUpdate mu m).created_at = m.created_at ∧
      (applyMemberUpdate mu m).id = m.id := by
  rcases mu with ⟨n, p, s⟩
  cases n <;> cases p <;>
    simp only [applyMemberUpdate] <;>
    refine ⟨?_, ?_, ?_, ?_⟩ <;>
    (try split) <;> (try split) <;> (first | rfl | trivial)

lemma applyMemberUpdate_only_name_phone (mu : MemberUpdate) (m : Member) :
    applyMemberUpdate mu m =
      { m with
          name := (applyMemberUpdate mu m).name
          phone_number := (applyMemberUpdate mu m).phone_number } := by
  rcases mu with ⟨n, p, s⟩
  cases n <;> cases p <;>
    simp only [applyMemberUpdate] <;>
    (try split) <;> (try split) <;> (first | rfl | trivial)

lemma applyMemberUpdate_status_irrel (mu : MemberUpdate) (s : Option String) :
    applyMemberUpdate { mu with status := s } = applyMemberUpdate mu := by
  funext m
  rfl

/-! ### The claims -/

/-- Claim C8: invoking dispatch on a broadcast id with no corresponding
broadcast row is a no-op success — the store is unchanged, no ledger entry is
created, and the run performs no commit and no send. -/
theorem dispatch_absent_broadcast_noop (db : DB) (bid : Nat)
    (h : getBroadcast db bid = none) :
    process_broadcast bid db = db ∧ (process_broadcast_trace bid db).2 = [] :=
  ⟨process_broadcast_none h, process_broadcast_trace_none h⟩

/-- Witness for C8: broadcast id 99 does not exist in `exDB`. -/
theorem dispatch_absent_broadcast_noop_witness :
    process_broadcast 99 exDB = exDB ∧ (process_broadcast_trace 99 exDB).2 = [] :=
  dispatch_absent_broadcast_noop exDB 99 (by decide)

/-- Claim C3: dispatching a broadcast whose organization has zero active
members ends the broadcast in `completed` and creates zero ledger entries. -/
theorem dispatch_empty_audience_completed (db : DB) (bid : Nat) (b : Broadcast)
    (hb : getBroadcast db bid = some b)
    (hempty : activeMembers db b.organization_id = []) :
    broadcastStatusIn (process_broadcast bid db) bid =
        some BroadcastStatus.COMPLETED ∧
      (process_broadcast bid db).broadcast_logs = db.broadcast_logs := by
  refine ⟨broadcastStatusIn_process hb, ?_⟩
  rw [process_broadcast_logs hb, hempty]
  simp

/-- Witness for C3: in `exDBEmptyAudience` organization 1 has only the
inactive Carol. -/
theorem dispatch_empty_audience_completed_witness :
    broadcastStatusIn (process_broadcast 1 exDBEmptyAudience) 1 =
        some BroadcastStatus.COMPLETED ∧
      (process_broadcast 1 exDBEmptyAudience).broadcast_logs =
        exDBEmptyAudience.broadcast_logs :=
  dispatch_empty_audience_completed exDBEmptyAudience 1 exBroadcast (by decide)
    (by decide)

/-- Claim C2: after a completed dispatch run on a broadcast with a fresh
ledger, the ledger rows of the broadcast are in bijection with the members
that were active in its organization at dispatch start: the rows list exactly
those member ids, and each stored member has exactly one row when it was an
active member of the broadcast's organization and zero rows otherwise. -/
theorem dispatch_ledger_bijection (db : DB) (bid : Nat) (b : Broadcast)
    (hb : getBroadcast db bid = some b)
    (h0 : logsFor db bid = [])
    (hnd : membersNodup db) :
    ((logsFor (process_broadcast bid db) bid).map (fun l => l.member_id) =
        (activeMembers db b.organization_id).map (fun m => m.id)) ∧
      ∀ m ∈ db.members,
        countLogsFor (process_broadcast bid db) bid m.id =
          if m.organization_id = b.organization_id ∧
              m.status = MemberStatus.ACTIVE then 1 else 0 := by
  constructor
  · rw [logsFor_process hb, h0, List.nil_append, List.map_map]
    rfl
  · intro m hm
    rw [countLogsFor_process hb, countLogsFor_of_logsFor_nil h0, Nat.zero_add,
      activeMembers_countP_id b.organization_id hnd hm]

/-- Witness for C2: dispatch of broadcast 1 in `exDB` (Alice and Bob active in
organization 1, Carol inactive, Dave in organization 2). -/
theorem dispatch_ledger_bijection_witness :
    ((logsFor (process_broadcast 1 exDB) 1).map (fun l => l.member_id) =
        (activeMembers exDB exBroadcast.organization_id).map (fun m => m.id)) ∧
      ∀ m ∈ exDB.members,
        countLogsFor (process_broadcast 1 exDB) 1 m.id =
          if m.organization_id = exBroadcast.organization_id ∧
              m.status = MemberStatus.ACTIVE then 1 else 0 :=
  dispatch_ledger_bijection exDB 1 exBroadcast (by decide) (by decide) (by decide)

/-- Counterexample to claim C1 as stated: broadcast 1 of `exDB` is dispatched
once (reaching `completed`, one ledger row for member 1) and then dispatched a
second time while in that terminal state; the second invocation re-sends, and
member 1 ends with two ledger rows instead of at most one. -/
theorem dispatch_rerun_not_idempotent_cex :
    broadcastStatusIn (process_broadcast 1 exDB) 1 =
        some BroadcastStatus.COMPLETED ∧
      countLogsFor (process_broadcast 1 exDB) 1 1 = 1 ∧
      countLogsFor (process_broadcast 1 (process_broadcast 1 exDB)) 1 1 = 2 := by
  decide

/-- Claim C1 amended: `process_broadcast` checks no status, so a second
invocation on a broadcast already in `processing` or a terminal state performs
a full re-dispatch — within one run every active member of the broadcast's
organization gets exactly one ledger row, and after a second invocation it has
exactly two. -/
theorem dispatch_rerun_duplicates (db : DB) (bid : Nat) (b : Broadcast)
    (hb : getBroadcast db bid = some b) (h0 : logsFor db bid = [])
    (hnd : membersNodup db) :
    ∀ m ∈ db.members, m.organization_id = b.organization_id →
      m.status = MemberStatus.ACTIVE →
        countLogsFor (process_broadcast bid db) bid m.id = 1 ∧
          countLogsFor (process_broadcast bid (process_broadcast bid db))
            bid m.id = 2 := by
  intro m hm horg hact
  have h1 : countLogsFor (process_broadcast bid db) bid m.id = 1 := by
    rw [countLogsFor_process hb, countLogsFor_of_logsFor_nil h0, Nat.zero_add,
      activeMembers_countP_id b.organization_id hnd hm, if_pos ⟨horg, hact⟩]
  refine ⟨h1, ?_⟩
  have hb2 := getBroadcast_process hb
  rw [countLogsFor_process hb2, h1,
    show ({ b with status := BroadcastStatus.COMPLETED } : Broadcast).organization_id
        = b.organization_id from rfl,
    activeMembers_eq_of_members_eq b.organization_id (process_broadcast_members bid db),
    activeMembers_countP_id b.organization_id hnd hm, if_pos ⟨horg, hact⟩]

/-- Witness for the amended C1: Alice (member 1) of `exDB` has one ledger row
after the first dispatch of broadcast 1 and two after the second. -/
theorem dispatch_rerun_duplicates_witness :
    countLogsFor (process_broadcast 1 exDB) 1 1 = 1 ∧
      countLogsFor (process_broadcast 1 (process_broadcast 1 exDB)) 1 1 = 2 :=
  dispatch_rerun_duplicates exDB 1 exBroadcast (by decide) (by decide)
    (by decide) exAlice (by decide) (by decide) (by decide)

/-- Counterexample to claim C5 as stated: after broadcast 1 of `exDB` has
reached the terminal state `completed`, a further dispatch invocation makes its
observable status sequence `completed, processing, completed` — a terminal
state transitions again, `completed` is re-entered, and the sequence is a
subsequence of neither `draft, scheduled, processing, completed` nor
`draft, scheduled, processing, failed`. -/
theorem status_terminal_reentered_cex :
    statusSeq 1 (process_broadcast 1 exDB) =
        [BroadcastStatus.COMPLETED, BroadcastStatus.PROCESSING,
          BroadcastStatus.COMPLETED] ∧
      ¬ (statusSeq 1 (process_broadcast 1 exDB)).Nodup ∧
      ¬ List.Sublist (statusSeq 1 (process_broadcast 1 exDB)) lifecycleChain ∧
      ¬ List.Sublist (statusSeq 1 (process_broadcast 1 exDB))
          [BroadcastStatus.DRAFT, BroadcastStatus.SCHEDULED,
            BroadcastStatus.PROCESSING, BroadcastStatus.FAILED] := by
  decide

/-- Claim C5 amended: during a single dispatch run started on a broadcast in a
pre-dispatch state (`draft` or `scheduled`), the observable status sequence is
exactly the initial status followed by `processing` and `completed` — a
monotone subsequence of the canonical chain with no state re-entered and
`processing` not skipped.  The code enforces no status claim, however, so a
later dispatch invocation re-enters `processing` from a terminal state (see
the counterexample). -/
theorem status_monotone_single_run (db : DB) (bid : Nat) (s : String)
    (hs : broadcastStatusIn db bid = some s)
    (hpre : s = BroadcastStatus.DRAFT ∨ s = BroadcastStatus.SCHEDULED) :
    statusSeq bid db =
        [s, BroadcastStatus.PROCESSING, BroadcastStatus.COMPLETED] ∧
      List.Sublist (statusSeq bid db) lifecycleChain ∧
      (statusSeq bid db).Nodup := by
  obtain ⟨b, hb, hbs⟩ : ∃ b, getBroadcast db bid = some b ∧ b.status = s := by
    unfold broadcastStatusIn at hs
    cases hg : getBroadcast db bid with
    | none => rw [hg] at hs; cases hs
    | some b =>
        rw [hg] at hs
        exact ⟨b, rfl, by simpa using hs⟩
  have hseq : statusSeq bid db =
      [s, BroadcastStatus.PROCESSING, BroadcastStatus.COMPLETED] := by
    unfold statusSeq
    rw [hs, process_broadcast_trace_eq hb]
    simp [commitStatuses, List.filterMap_cons, List.filterMap_append,
      List.filterMap_map, Function.comp,
      broadcastStatusIn_setStatus BroadcastStatus.PROCESSING hb,
      broadcastStatusIn_process hb]
  refine ⟨hseq, ?_, ?_⟩ <;> rw [hseq] <;> rcases hpre with rfl | rfl <;> decide

/-- Witness for the amended C5: broadcast 1 of `exDB` starts in `scheduled`. -/
theorem status_monotone_single_run_witness :
    statusSeq 1 exDB =
        [BroadcastStatus.SCHEDULED, BroadcastStatus.PROCESSING,
          BroadcastStatus.COMPLETED] ∧
      List.Sublist (statusSeq 1 exDB) lifecycleChain ∧
      (statusSeq 1 exDB).Nodup :=
  status_monotone_single_run exDB 1 BroadcastStatus.SCHEDULED (by decide)
    (Or.inr rfl)

/-- Claim C4: in a dispatch run on a broadcast with a fresh ledger, the very
first event of the trace is the commit that persists the `processing` status —
so it precedes every send attempt — and that committed state carries no ledger
row for the broadcast; the only other commit is the final one, so every
committed state that shows a ledger row for the broadcast shows it in
`processing` or `completed`, never in a pre-dispatch status. -/
theorem sends_only_after_processing_persisted (db : DB) (bid : Nat)
    (b : Broadcast) (hb : getBroadcast db bid = some b)
    (h0 : logsFor db bid = []) :
    (process_broadcast_trace bid db).2 =
        Event.commit (setBroadcastStatus db bid BroadcastStatus.PROCESSING) ::
          ((activeMembers db b.organization_id).map
              (fun m => Event.send m.id m.phone_number b.content) ++
            [Event.commit (process_broadcast bid db)]) ∧
      broadcastStatusIn (setBroadcastStatus db bid BroadcastStatus.PROCESSING)
          bid = some BroadcastStatus.PROCESSING ∧
      logsFor (setBroadcastStatus db bid BroadcastStatus.PROCESSING) bid = [] ∧
      ∀ d, Event.commit d ∈ (process_broadcast_trace bid db).2 →
        logsFor d bid ≠ [] →
          broadcastStatusIn d bid = some BroadcastStatus.PROCESSING ∨
            broadcastStatusIn d bid = some BroadcastStatus.COMPLETED := by
  refine ⟨process_broadcast_trace_eq hb,
    broadcastStatusIn_setStatus BroadcastStatus.PROCESSING hb, h0, ?_⟩
  intro d hd hne
  rw [process_broadcast_trace_eq hb] at hd
  rcases List.mem_cons.mp hd with h1 | h2
  · injection h1 with h1
    subst h1
    exact absurd h0 hne
  · rcases List.mem_append.mp h2 with h3 | h4
    · rcases List.mem_map.mp h3 with ⟨m, _, heq⟩
      cases heq
    · rcases List.mem_singleton.mp h4 with heq
      right
      injection heq.symm with h5
      rw [← h5]
      exact broadcastStatusIn_process hb

/-- Witness for C4: the trace of dispatching broadcast 1 of `exDB`. -/
theorem sends_only_after_processing_persisted_witness :
    (process_broadcast_trace 1 exDB).2 =
        Event.commit (setBroadcastStatus exDB 1 BroadcastStatus.PROCESSING) ::
          ((activeMembers exDB exBroadcast.organization_id).map
              (fun m => Event.send m.id m.phone_number exBroadcast.content) ++
            [Event.commit (process_broadcast 1 exDB)]) ∧
      broadcastStatusIn (setBroadcastStatus exDB 1 BroadcastStatus.PROCESSING)
          1 = some BroadcastStatus.PROCESSING ∧
      logsFor (setBroadcastStatus exDB 1 BroadcastStatus.PROCESSING) 1 = [] ∧
      ∀ d, Event.commit d ∈ (process_broadcast_trace 1 exDB).2 →
        logsFor d 1 ≠ [] →
          broadcastStatusIn d 1 = some BroadcastStatus.PROCESSING ∨
            broadcastStatusIn d 1 = some BroadcastStatus.COMPLETED :=
  sends_only_after_processing_persisted exDB 1 exBroadcast (by decide) (by decide)

/-- Claim C6 (against the spec-modelled sender variant, see
`process_broadcast_send`): when the Channel Sender fails for a recipient, that
recipient's ledger row is `failed` with the sender's reason captured, every
active member — the failing one included — still gets exactly one ledger row,
and the broadcast still ends `completed`. -/
theorem sender_failure_isolated (sender : ChannelSender) (db : DB) (bid : Nat)
    (b : Broadcast) (hb : getBroadcast db bid = some b)
    (h0 : logsFor db bid = []) (hnd : membersNodup db) :
    broadcastStatusIn (process_broadcast_send sender bid db) bid =
        some BroadcastStatus.COMPLETED ∧
      (∀ m ∈ activeMembers db b.organization_id,
        countLogsFor (process_broadcast_send sender bid db) bid m.id = 1) ∧
      ∀ m ∈ activeMembers db b.organization_id, ∀ e,
        sender m.phone_number b.content = Except.error e →
          (logsFor (process_broadcast_send sender bid db) bid).filter
              (fun l => l.member_id == m.id) =
            [{ broadcast_id := bid, member_id := m.id, status := "failed",
               error_reason := some e, message_id := none }] := by
  have hid := getBroadcast_id hb
  have hmnd : ((activeMembers db b.organization_id).map (fun x => x.id)).Nodup :=
    hnd.sublist ((List.filter_sublist db.members).map _)
  have hlogs : logsFor (process_broadcast_send sender bid db) bid =
      (activeMembers db b.organization_id).map (sendLogFor sender b) := by
    rw [logsFor_process_send hb, h0, List.nil_append]
  refine ⟨broadcastStatusIn_process_send hb, ?_, ?_⟩
  · intro m hm
    unfold countLogsFor
    rw [hlogs, List.countP_map]
    have : ((fun l => l.member_id == m.id) ∘ sendLogFor sender b) =
        fun x => x.id == m.id := by
      funext x
      simp [Function.comp, sendLogFor_member_id]
    rw [this]
    exact countP_id_of_nodup hmnd hm
  · intro m hm e he
    rw [hlogs, List.filter_map]
    have hpf : ((fun l => l.member_id == m.id) ∘ sendLogFor sender b) =
        fun x => x.id == m.id := by
      funext x
      simp [Function.comp, sendLogFor_member_id]
    rw [hpf, filter_id_eq_singleton hmnd hm, List.map_singleton]
    unfold sendLogFor
    rw [he, hid]

/-- Witness for C6: `exSender` fails exactly for Bob (member 2) of `exDB`;
Bob's row is `failed` with the reason, Bob has exactly one row, and broadcast 1
ends `completed`. -/
theorem sender_failure_isolated_witness :
    broadcastStatusIn (process_broadcast_send exSender 1 exDB) 1 =
        some BroadcastStatus.COMPLETED ∧
      countLogsFor (process_broadcast_send exSender 1 exDB) 1 2 = 1 ∧
      (logsFor (process_broadcast_send exSender 1 exDB) 1).filter
          (fun l => l.member_id == 2) =
        [{ broadcast_id := 1, member_id := 2, status := "failed",
           error_reason := some "invalid number", message_id := none }] := by
  have h := sender_failure_isolated exSender exDB 1 exBroadcast (by decide)
    (by decide) (by decide)
  exact ⟨h.1, h.2.1 exBob (by decide), h.2.2 exBob (by decide) "invalid number"
    (by rfl)⟩

/-- Claim C7 (against the spec-modelled credential lookup, see
`dispatch_with_credentials`): when the organization's channel-credential lookup
fails before any send, the dispatch run aborts with zero ledger entries created
and the broadcast ends in status `failed`. -/
theorem credential_failure_aborts (db : DB) (bid : Nat) (b : Broadcast)
    (hb : getBroadcast db bid = some b)
    (hcred : (getOrganization db b.organization_id).bind
        (fun o => o.whatsapp_access_token) = none) :
    broadcastStatusIn (dispatch_with_credentials bid db) bid =
        some BroadcastStatus.FAILED ∧
      (dispatch_with_credentials bid db).broadcast_logs = db.broadcast_logs := by
  have hd : dispatch_with_credentials bid db =
      setBroadcastStatus db bid BroadcastStatus.FAILED := by
    simp only [dispatch_with_credentials, hb, hcred]
  rw [hd]
  exact ⟨broadcastStatusIn_setStatus BroadcastStatus.FAILED hb, rfl⟩

/-- Witness for C7: broadcast 2 of `exDB` belongs to organization 2, whose
`whatsapp_access_token` is NULL. -/
theorem credential_failure_aborts_witness :
    broadcastStatusIn (dispatch_with_credentials 2 exDB) 2 =
        some BroadcastStatus.FAILED ∧
      (dispatch_with_credentials 2 exDB).broadcast_logs = exDB.broadcast_logs :=
  credential_failure_aborts exDB 2 exBroadcastNoCred (by decide) (by decide)

/-- Claim C9: the member and broadcast routes are tenant-scoped.  Listing
members or broadcasts returns only rows of the caller's organization; a
successful member update rewrites at most one row, and only a row of the
caller's organization, touching no other table; a successful member delete
removes exactly one member row, which belongs to the caller's organization,
and removes only ledger rows referencing that member. -/
theorem tenant_scoping (u : User) (db : DB) (skip limit mid1 mid2 : Nat)
    (mu : MemberUpdate) (db1 db2 : DB)
    (hu : update_member mid1 mu u db = Except.ok db1)
    (hd : delete_member mid2 u db = Except.ok db2) :
    (∀ m ∈ read_members skip limit u db,
        m.organization_id = u.organization_id) ∧
      (∀ b ∈ read_broadcasts u db, b.organization_id = u.organization_id) ∧
      List.Forall₂
        (fun old new =>
          new = old ∨
            (old.organization_id = u.organization_id ∧
              new = applyMemberUpdate mu old))
        db.members db1.members ∧
      db1.broadcasts = db.broadcasts ∧
      db1.broadcast_logs = db.broadcast_logs ∧
      (∃ dm l1 l2, db.members = l1 ++ dm :: l2 ∧ db2.members = l1 ++ l2 ∧
        dm.id = mid2 ∧ dm.organization_id = u.organization_id) ∧
      (∀ l ∈ db.broadcast_logs, l ∉ db2.broadcast_logs →
        l.member_id = mid2) ∧
      db2.broadcasts = db.broadcasts := by
  obtain ⟨⟨mU, hfU⟩, hdb1⟩ := update_member_ok hu
  obtain ⟨⟨mD, hfD⟩, hdb2⟩ := delete_member_ok hd
  subst hdb1
  subst hdb2
  refine ⟨?_, ?_, ?_, rfl, rfl, ?_, ?_, rfl⟩
  · intro m hm
    unfold read_members at hm
    have hm2 := List.drop_subset _ _ (List.take_subset _ _ hm)
    have := (List.mem_filter.mp hm2).2
    simpa using this
  · intro b hb
    unfold read_broadcasts at hb
    have := (List.mem_filter.mp hb).2
    simpa using this
  · refine (updateFirst_forall2 _ _ db.members).imp ?_
    intro old new hrel
    rcases hrel with rfl | ⟨hp, rfl⟩
    · exact Or.inl rfl
    · simp only [Bool.and_eq_true, beq_iff_eq] at hp
      exact Or.inr ⟨hp.2, rfl⟩
  · have hfD' : db.members.find?
        (fun m => m.id == mid2 && m.organization_id == u.organization_id) =
          some mD := hfD
    rcases removeFirst_decomp hfD' with ⟨l1, l2, hsplit, hrem, hpm⟩
    simp only [Bool.and_eq_true, beq_iff_eq] at hpm
    exact ⟨mD, l1, l2, hsplit, hrem, hpm.1, hpm.2⟩
  · intro l hl hnot
    by_contra hne
    exact hnot (List.mem_filter.mpr ⟨hl, by simp [hne]⟩)

/-- Witness for C9: renaming and deleting Alice (member 1) in `exDB` as
`exUser` of organization 1. -/
theorem tenant_scoping_witness :
    (∀ m ∈ read_members 0 100 exUser exDB,
        m.organization_id = exUser.organization_id) ∧
      (∀ b ∈ read_broadcasts exUser exDB,
        b.organization_id = exUser.organization_id) ∧
      (∃ dm l1 l2, exDB.members = l1 ++ dm :: l2 ∧
        exDBDeleted.members = l1 ++ l2 ∧
        dm.id = 1 ∧ dm.organization_id = exUser.organization_id) := by
  have h := tenant_scoping exUser exDB 0 100 1 1 exUpdate exDBUpdated
    exDBDeleted (by rfl) (by rfl)
  exact ⟨h.1, h.2.1, h.2.2.2.2.2.1⟩

/-- Claim C10: a member update changes at most the `name` and `phone_number`
fields — every member keeps its `status`, `organization_id`, `created_at` and
`id` — and the `status` field accepted by the update schema is never applied:
two update requests differing only in `status` produce identical results. -/
theorem member_update_frame (mid : Nat) (mu : MemberUpdate) (u : User)
    (db db' : DB) (h : update_member mid mu u db = Except.ok db') :
    List.Forall₂
        (fun old new =>
          new.status = old.status ∧ new.organization_id = old.organization_id ∧
            new.created_at = old.created_at ∧ new.id = old.id ∧
            new = { old with
              name := new.name
              phone_number := new.phone_number })
        db.members db'.members ∧
      ∀ s, update_member mid { mu with status := s } u db =
        update_member mid mu u db := by
  obtain ⟨⟨m0, hf⟩, hdb⟩ := update_member_ok h
  subst hdb
  constructor
  · refine (updateFirst_forall2 _ _ db.members).imp ?_
    intro old new hrel
    rcases hrel with rfl | ⟨hp, rfl⟩
    · exact ⟨rfl, rfl, rfl, rfl, rfl⟩
    · obtain ⟨h1, h2, h3, h4⟩ := applyMemberUpdate_frame mu old
      exact ⟨h1, h2, h3, h4, applyMemberUpdate_only_name_phone mu old⟩
  · intro s
    unfold update_member
    rw [applyMemberUpdate_status_irrel]

/-- Witness for C10: the update request `exUpdate` carries
`status := some "inactive"`, yet Alice's status survives and any `status`
value gives the same result. -/
theorem member_update_frame_witness :
    List.Forall₂
        (fun old new =>
          new.status = old.status ∧ new.organization_id = old.organization_id ∧
            new.created_at = old.created_at ∧ new.id = old.id ∧
            new = { old with
              name := new.name
              phone_number := new.phone_number })
        exDB.members exDBUpdated.members ∧
      ∀ s, update_member 1 { exUpdate with status := s } exUser exDB =
        update_member 1 exUpdate exUser exDB :=
  member_update_frame 1 exUpdate exUser exDB exDBUpdated (by rfl)

end WABroadcast
